import Mathlib

/-!
Shallow embedding of the `timber` structural-analysis engine
(`src/timber/engine.py`) in Lean 4, together with theorems settling the
frozen claims about its specification.

Modelling conventions:
* Python floats are modelled as exact rationals `ℚ`.  Rationals have no
  NaN/Inf, so `np.isnan`/`np.isinf` guards are identically false in the
  embedding and are recorded as such where they occur.  Division by zero
  in `ℚ` yields `0`, which coincides with the engine's explicit
  zero-strength / zero-area guards.
* `numpy` square roots (`** 0.5`, `np.linalg.norm`) and `np.sin` are not
  rational; the embedding is parametrised by abstract functions
  `sq : ℚ → ℚ` (square root) and `sinq : ℚ → ℚ` (where `sinq c` stands
  for `sin (2 * π * c)`).  `np.linalg.solve` on the n×n dynamics systems
  is parametrised by an abstract `linsolve`; a `none` result models
  `np.linalg.LinAlgError`.
* Python exceptions are modelled by `Option`: `none` is a raised
  exception propagating to the caller.
* Vectors are `ℕ → ℚ` and matrices `ℕ → ℕ → ℚ`, with explicit sizes
  carried separately; entries outside the size are never read.
-/

namespace Timber

abbrev Vec := ℕ → ℚ
abbrev Mat := ℕ → ℕ → ℚ

/-- Elementwise zero matrix. -/
def zeroMat : Mat := fun _ _ => 0

/-- Zero vector. -/
def zeroVec : Vec := fun _ => 0

/-- Matrix–vector product over the first `n` coordinates (`K @ x`). -/
def matVec (n : ℕ) (K : Mat) (x : Vec) : Vec :=
  fun i => ∑ j ∈ Finset.range n, K i j * x j

/-- Matrix product over inner dimension `n` (`A @ B`). -/
def matMul (n : ℕ) (A B : Mat) : Mat :=
  fun i j => ∑ p ∈ Finset.range n, A i p * B p j

/-- Matrix transpose (`A.T`). -/
def transpose (A : Mat) : Mat := fun i j => A j i

/-- Pointwise sum of matrices. -/
def matAdd (A B : Mat) : Mat := fun i j => A i j + B i j

/-- Scalar multiple of a matrix. -/
def matSmul (c : ℚ) (A : Mat) : Mat := fun i j => c * A i j

/-- Pointwise vector sum. -/
def vecAdd (a b : Vec) : Vec := fun i => a i + b i

/-- Pointwise vector difference. -/
def vecSub (a b : Vec) : Vec := fun i => a i - b i

/-- Scalar multiple of a vector. -/
def vecSmul (c : ℚ) (a : Vec) : Vec := fun i => c * a i

/-- Add `q` to entry `i` of vector `F` (the `F[idx] += q` idiom). -/
def addAt (F : Vec) (i : ℕ) (q : ℚ) : Vec :=
  fun j => if j = i then F j + q else F j

-- =============================================================================
-- DATA CLASSES (engine.py dataclasses; quantities are bare SI rationals,
-- the `UnitQuantity` wrapper of units.py only tags a float with a unit vector)
-- =============================================================================

/-- `Material` dataclass: linear-elastic properties and strengths. -/
structure Material where
  E : ℚ
  G : ℚ
  density : ℚ
  tensile_strength : ℚ
  compressive_strength : ℚ
  shear_strength : ℚ
  bending_strength : ℚ
deriving DecidableEq

/-- `Section` dataclass: cross-sectional properties. -/
structure Section where
  A : ℚ
  Iy : ℚ
  Iz : ℚ
  J : ℚ
  y_max : ℚ
  z_max : ℚ
deriving DecidableEq

/-- `Member` dataclass: a prismatic beam element between two point ids,
with mutable failure state.  The Python field `end` is spelled `end_`
and `section` is spelled `sect` (both are Lean keywords). -/
structure Member where
  start : Int
  end_ : Int
  material : Material
  sect : Section
  is_broken : Bool := false
  break_time : Option ℚ := none
  failure_mode : Option String := none
deriving DecidableEq

/-- Property accessor `Member.E`. -/
def Member.E (m : Member) : ℚ := m.material.E

/-- Property accessor `Member.G`. -/
def Member.G (m : Member) : ℚ := m.material.G

/-- Property accessor `Member.A`. -/
def Member.A (m : Member) : ℚ := m.sect.A

/-- Property accessor `Member.Iy`. -/
def Member.Iy (m : Member) : ℚ := m.sect.Iy

/-- Property accessor `Member.Iz`. -/
def Member.Iz (m : Member) : ℚ := m.sect.Iz

/-- Property accessor `Member.J`. -/
def Member.J (m : Member) : ℚ := m.sect.J

/-- Property accessor `Member.density`. -/
def Member.density (m : Member) : ℚ := m.material.density

/-- Property accessor `Member.tensile_strength`. -/
def Member.tensile_strength (m : Member) : ℚ := m.material.tensile_strength

/-- Property accessor `Member.compressive_strength`. -/
def Member.compressive_strength (m : Member) : ℚ := m.material.compressive_strength

/-- Property accessor `Member.shear_strength`. -/
def Member.shear_strength (m : Member) : ℚ := m.material.shear_strength

/-- Property accessor `Member.bending_strength`. -/
def Member.bending_strength (m : Member) : ℚ := m.material.bending_strength

/-- Property accessor `Member.y_max`. -/
def Member.y_max (m : Member) : ℚ := m.sect.y_max

/-- Property accessor `Member.z_max`. -/
def Member.z_max (m : Member) : ℚ := m.sect.z_max

/-- `Point` dataclass: id, position, optional lumped mass. -/
structure Point where
  id : Int
  x : ℚ
  y : ℚ
  z : ℚ := 0
  mass : ℚ := 0
deriving DecidableEq

/-- `Load` dataclass: nodal load with optional time function. -/
structure Load where
  point : Int
  fx : ℚ := 0
  fy : ℚ := 0
  fz : ℚ := 0
  mx : ℚ := 0
  my : ℚ := 0
  mz : ℚ := 0
  amount : ℚ := 0
  time_function : Option String := none
  start_time : ℚ := 0
  duration : ℚ := 0
  frequency : ℚ := 1
deriving DecidableEq

/-- `Support` dataclass: six boolean DOF-constraint flags at a point. -/
structure Support where
  point : Int
  ux : Bool := false
  uy : Bool := false
  uz : Bool := false
  rx : Bool := false
  ry : Bool := false
  rz : Bool := false
deriving DecidableEq

/-- `Model` dataclass: ordered collections of points, members, loads, supports. -/
structure Model where
  points : List Point := []
  members : List Member := []
  loads : List Load := []
  supports : List Support := []
deriving DecidableEq

/-- Six-component tuple used for velocities/accelerations/reactions. -/
abbrev Vec6 := ℚ × ℚ × ℚ × ℚ × ℚ × ℚ

/-- `Frame` dataclass: one simulation snapshot.  Python dicts keyed by
point id / member index are association lists in insertion order. -/
structure Frame where
  time : ℚ
  positions : List (Int × (ℚ × ℚ × ℚ))
  velocities : List (Int × Vec6)
  accelerations : List (Int × Vec6)
  reactions : List (Int × Vec6)
  member_forces : List (ℕ × (ℚ × ℚ × ℚ))
  member_stresses : List (ℕ × (ℚ × ℚ × ℚ × ℚ))
  broken_members : List ℕ := []
  issues : List String := []

/-- `Results` dataclass: complete dynamic simulation results. -/
structure Results where
  frames : List Frame
  unit_system : String := "metric"
  final_time : ℚ := 0
  total_frames : ℕ := 0

-- =============================================================================
-- LOCAL STIFFNESS (`_local_stiffness`, engine.py lines 432-478)
-- =============================================================================

/-- The 12×12 entry table written by `_local_stiffness` after its guards
(axial, two bending families, torsion); all other entries stay `0`. -/
def localK (E A Iz Iy G J L : ℚ) : Mat := fun i j =>
  match i, j with
  | 0, 0 => A * E / L
  | 6, 6 => A * E / L
  | 0, 6 => -(A * E / L)
  | 6, 0 => -(A * E / L)
  | 1, 1 => 12 * E * Iz / L ^ 3
  | 7, 7 => 12 * E * Iz / L ^ 3
  | 1, 7 => -(12 * E * Iz / L ^ 3)
  | 7, 1 => -(12 * E * Iz / L ^ 3)
  | 1, 5 => 6 * E * Iz / L ^ 2
  | 5, 1 => 6 * E * Iz / L ^ 2
  | 1, 11 => 6 * E * Iz / L ^ 2
  | 11, 1 => 6 * E * Iz / L ^ 2
  | 7, 5 => -(6 * E * Iz / L ^ 2)
  | 5, 7 => -(6 * E * Iz / L ^ 2)
  | 7, 11 => -(6 * E * Iz / L ^ 2)
  | 11, 7 => -(6 * E * Iz / L ^ 2)
  | 5, 5 => 4 * E * Iz / L
  | 11, 11 => 4 * E * Iz / L
  | 5, 11 => 2 * E * Iz / L
  | 11, 5 => 2 * E * Iz / L
  | 2, 2 => 12 * E * Iy / L ^ 3
  | 8, 8 => 12 * E * Iy / L ^ 3
  | 2, 8 => -(12 * E * Iy / L ^ 3)
  | 8, 2 => -(12 * E * Iy / L ^ 3)
  | 2, 4 => -(6 * E * Iy / L ^ 2)
  | 4, 2 => -(6 * E * Iy / L ^ 2)
  | 2, 10 => -(6 * E * Iy / L ^ 2)
  | 10, 2 => -(6 * E * Iy / L ^ 2)
  | 8, 4 => 6 * E * Iy / L ^ 2
  | 4, 8 => 6 * E * Iy / L ^ 2
  | 8, 10 => 6 * E * Iy / L ^ 2
  | 10, 8 => 6 * E * Iy / L ^ 2
  | 4, 4 => 4 * E * Iy / L
  | 10, 10 => 4 * E * Iy / L
  | 4, 10 => 2 * E * Iy / L
  | 10, 4 => 2 * E * Iy / L
  | 3, 3 => G * J / L
  | 9, 9 => G * J / L
  | 3, 9 => -(G * J / L)
  | 9, 3 => -(G * J / L)
  | _, _ => 0

/-- `_local_stiffness(E, A, Iz, Iy, G, J, L)`: raises (`none`) when
`L <= 0`; the NaN / Inf guards that follow are identically false for
exact rationals; returns an all-zero matrix when `L > 1e6`; otherwise
returns the populated 12×12 local stiffness matrix. -/
def _local_stiffness (E A Iz Iy G J L : ℚ) : Option Mat :=
  if L ≤ 0 then none
  else if L > 10 ^ 6 then some zeroMat
  else some (localK E A Iz Iy G J L)

theorem localK_symm (E A Iz Iy G J L : ℚ) (i j : ℕ) :
    localK E A Iz Iy G J L i j = localK E A Iz Iy G J L j i := by
  rcases i with _|_|_|_|_|_|_|_|_|_|_|_|i <;>
    rcases j with _|_|_|_|_|_|_|_|_|_|_|_|j <;> rfl

/-- Every matrix produced by `_local_stiffness` is symmetric (the
`L > 1e6` branch returns the zero matrix). -/
theorem _local_stiffness_symm (E A Iz Iy G J L : ℚ) (k : Mat)
    (h : _local_stiffness E A Iz Iy G J L = some k) (i j : ℕ) :
    k i j = k j i := by
  unfold _local_stiffness at h
  split at h
  · exact absurd h (by simp)
  · split at h
    · cases h; rfl
    · cases h; exact localK_symm E A Iz Iy G J L i j

-- =============================================================================
-- TRANSFORMATION (`_transformation_3d`, engine.py lines 510-578)
-- =============================================================================

/-- 3-vector cross product (`np.cross`). -/
def cross3 (a b : ℚ × ℚ × ℚ) : ℚ × ℚ × ℚ :=
  (a.2.1 * b.2.2 - a.2.2 * b.2.1,
   a.2.2 * b.1 - a.1 * b.2.2,
   a.1 * b.2.1 - a.2.1 * b.1)

/-- First index of the smallest of the three absolute components
(`np.argmin(np.abs(x_axis))`, which returns the first minimiser). -/
def argmin3 (a b c : ℚ) : ℕ :=
  if |a| ≤ |b| ∧ |a| ≤ |c| then 0 else if |b| ≤ |c| then 1 else 2

/-- Standard basis vector of `ℚ³`. -/
def basis3 (i : ℕ) : ℚ × ℚ × ℚ :=
  if i = 0 then (1, 0, 0) else if i = 1 then (0, 1, 0) else (0, 0, 1)

/-- Build the block-diagonal 12×12 transform from a 3×3 rotation whose
columns are `x_axis`, `y_axis`, `z_axis` (`np.column_stack` then four
3×3 diagonal blocks). -/
def blockDiagT (xa ya za : ℚ × ℚ × ℚ) : Mat := fun i j =>
  if i / 3 = j / 3 ∧ i < 12 ∧ j < 12 then
    let r := i % 3
    let c := j % 3
    let col := if c = 0 then xa else if c = 1 then ya else za
    if r = 0 then col.1 else if r = 1 then col.2.1 else col.2.2
  else 0

/-- `_transformation_3d(start_pos, end_pos)`, parametrised by the
abstract square root `sq`.  Raises (`none`) on a zero-length member or
when no orthogonal basis can be found; the reference-vector cascade
(smallest-component axis, then an alternative axis, then global Z)
follows the source.  `PSEUDO_INVERSE_TOLERANCE = 1e-12`. -/
def _transformation_3d (sq : ℚ → ℚ) (start_pos end_pos : ℚ × ℚ × ℚ) :
    Option Mat :=
  let dx := end_pos.1 - start_pos.1
  let dy := end_pos.2.1 - start_pos.2.1
  let dz := end_pos.2.2 - start_pos.2.2
  let L := sq (dx ^ 2 + dy ^ 2 + dz ^ 2)
  if L = 0 then none
  else
    let x_axis : ℚ × ℚ × ℚ := (dx / L, dy / L, dz / L)
    let min_idx := argmin3 x_axis.1 x_axis.2.1 x_axis.2.2
    let v_ref := basis3 min_idx
    let z_axis := cross3 x_axis v_ref
    let z_norm := sq (z_axis.1 ^ 2 + z_axis.2.1 ^ 2 + z_axis.2.2 ^ 2)
    let tol : ℚ := 1 / 10 ^ 12
    let step2 : Option ((ℚ × ℚ × ℚ) × ℚ) :=
      if z_norm < tol then
        let v_ref2 : ℚ × ℚ × ℚ := if min_idx ≠ 0 then (1, 0, 0) else (0, 1, 0)
        let z2 := cross3 x_axis v_ref2
        let n2 := sq (z2.1 ^ 2 + z2.2.1 ^ 2 + z2.2.2 ^ 2)
        if n2 < tol then
          let z3 := cross3 x_axis (0, 0, 1)
          let n3 := sq (z3.1 ^ 2 + z3.2.1 ^ 2 + z3.2.2 ^ 2)
          if n3 < tol then none else some (z3, n3)
        else some (z2, n2)
      else some (z_axis, z_norm)
    match step2 with
    | none => none
    | some (za, zn) =>
      let z1 : ℚ × ℚ × ℚ := (za.1 / zn, za.2.1 / zn, za.2.2 / zn)
      let y0 := cross3 z1 x_axis
      let yn := sq (y0.1 ^ 2 + y0.2.1 ^ 2 + y0.2.2 ^ 2)
      let y1 : ℚ × ℚ × ℚ := (y0.1 / yn, y0.2.1 / yn, y0.2.2 / yn)
      some (blockDiagT x_axis y1 z1)

-- =============================================================================
-- UNCONSTRAINED CLASSIFICATION (`_is_unconstrained_system`, lines 581-593)
-- =============================================================================

/-- `_is_unconstrained_system(model)`: `True` iff the supports list is
empty; any support record at all makes the model constrained. -/
def _is_unconstrained_system (model : Model) : Bool :=
  if model.supports.isEmpty then true else false

-- =============================================================================
-- GLOBAL ASSEMBLY (`_assemble_matrices`, engine.py lines 609-739)
-- =============================================================================

/-- `{p.id: i for i, p in enumerate(points)}`: maps a point id to the
index of the LAST point carrying it (later dict insertions win). -/
def pointIdToIdx (points : List Point) (pid : Int) : Option ℕ :=
  ((points.enum.filter (fun q => q.2.id == pid)).map Prod.fst).getLast?

/-- Current nodal positions: base geometry plus the translational part
of the accumulated displacement vector (when supplied). -/
def currentPositions (points : List Point) (x : Option Vec) :
    List (ℚ × ℚ × ℚ) :=
  match x with
  | some xv =>
    points.enum.map (fun q =>
      (q.2.x + xv (q.1 * 6), q.2.y + xv (q.1 * 6 + 1), q.2.z + xv (q.1 * 6 + 2)))
  | none => points.map (fun p => (p.x, p.y, p.z))

/-- The element DOF map `[6*start_idx .. 6*start_idx+5, 6*end_idx .. 6*end_idx+5]`. -/
def dofMap (si ei a : ℕ) : ℕ :=
  if a < 6 then si * 6 + a else ei * 6 + (a - 6)

/-- Scatter of the global 12×12 element matrix `kg` along `dofMap`:
the contribution the `K_full[dof_map[i], dof_map[j]] += ...` double
loop adds at global position `(i, j)`. -/
def scatter (kg : Mat) (si ei : ℕ) : Mat := fun i j =>
  ∑ a ∈ Finset.range 12, ∑ b ∈ Finset.range 12,
    if dofMap si ei a = i ∧ dofMap si ei b = j then kg a b else 0

/-- Accumulator of the member-assembly loop: the stiffness matrix and
the per-node lumped masses.  (The source also builds a
`connected_nodes` set, but never reads it afterwards; it is omitted.) -/
structure AsmAcc where
  K : Mat
  nm : List ℚ

/-- One iteration of the member loop of `_assemble_matrices`: skip
broken members and members referencing missing points; skip `L == 0`;
build the local stiffness and the 12×12 transform (either may raise),
scatter `T.T @ k_local @ T`, and add half the member mass to each end
node. -/
def asmStep (sq : ℚ → ℚ) (pos : List (ℚ × ℚ × ℚ)) (pIdx : Int → Option ℕ)
    (acc : AsmAcc) (m : Member) : Option AsmAcc :=
  if m.is_broken then some acc
  else
    match pIdx m.start, pIdx m.end_ with
    | some si, some ei =>
      let sp := pos.getD si (0, 0, 0)
      let ep := pos.getD ei (0, 0, 0)
      let dx := ep.1 - sp.1
      let dy := ep.2.1 - sp.2.1
      let dz := ep.2.2 - sp.2.2
      let L := sq (dx ^ 2 + dy ^ 2 + dz ^ 2)
      if L = 0 then some acc
      else
        match _local_stiffness m.E m.A m.Iz m.Iy m.G m.J L,
              _transformation_3d sq sp ep with
        | some kl, some T =>
          let kg := matMul 12 (matMul 12 (transpose T) kl) T
          let member_mass := m.density * m.A * L
          let mass_per_node := member_mass / 2
          some { K := matAdd acc.K (scatter kg si ei),
                 nm := (acc.nm.set si (acc.nm.getD si 0 + mass_per_node)).set ei
                         (((acc.nm.set si (acc.nm.getD si 0 + mass_per_node)).getD ei 0)
                           + mass_per_node) }
        | _, _ => none
    | _, _ => some acc

/-- Add each point's explicit mass to the nodal masses (`if explicit_mass > 0`). -/
def addExplicitMasses (points : List Point) (nm : List ℚ) : List ℚ :=
  points.enum.foldl
    (fun acc q => if q.2.mass > 0 then acc.set q.1 (acc.getD q.1 0 + q.2.mass) else acc)
    nm

/-- Diagonal of the lumped mass matrix built from the nodal masses:
translational DOFs get the nodal mass (floor `1.0` for massless nodes),
rotational DOFs get `max(m, 1e-6)` (floor `1e-6`). -/
def massDiag (nm : List ℚ) : ℕ → ℚ := fun d =>
  let i := d / 6
  let r := d % 6
  if i < nm.length then
    let mv := nm.getD i 0
    if mv > 0 then (if r < 3 then mv else max (mv * 1) (1 / 10 ^ 6))
    else (if r < 3 then 1 else 1 / 10 ^ 6)
  else 0

/-- External force vector accumulated from the base components of every
load whose point exists. -/
def buildFext (loads : List Load) (pIdx : Int → Option ℕ) : Vec :=
  loads.foldl
    (fun F load =>
      match pIdx load.point with
      | some i =>
        addAt (addAt (addAt (addAt (addAt (addAt F (i * 6) load.fx)
          (i * 6 + 1) load.fy) (i * 6 + 2) load.fz) (i * 6 + 3) load.mx)
          (i * 6 + 4) load.my) (i * 6 + 5) load.mz
      | none => F)
    zeroVec

/-- Penalty boundary condition at DOF `d`: zero the row and the column,
then set the diagonal to `1e12` (net effect of the source's
set-diagonal / zero-row / zero-column / restore-diagonal sequence). -/
def applyPenalty (K : Mat) (d : ℕ) : Mat := fun i j =>
  if i = d ∨ j = d then (if i = j then (10 : ℚ) ^ 12 else 0) else K i j

/-- The six constraint flags of a support in source order `[ux, uy, uz, rx, ry, rz]`. -/
def flagsOf (sup : Support) : List Bool :=
  [sup.ux, sup.uy, sup.uz, sup.rx, sup.ry, sup.rz]

/-- Inner step of the support loop: one `(flag index, flag)` pair of a
support at point index `pi`. -/
def constrainFlagStep (pi : ℕ) (acc2 : Mat × List ℕ) (q : ℕ × Bool) :
    Mat × List ℕ :=
  if q.2 then (applyPenalty acc2.1 (pi * 6 + q.1), acc2.2 ++ [pi * 6 + q.1])
  else acc2

/-- Outer step of the support loop: one support record. -/
def constrainSupStep (pIdx : Int → Option ℕ) (acc : Mat × List ℕ)
    (sup : Support) : Mat × List ℕ :=
  match pIdx sup.point with
  | none => acc
  | some pi => (flagsOf sup).enum.foldl (constrainFlagStep pi) acc

/-- The support loop of `_assemble_matrices`: for every true flag of
every support whose point exists, append the DOF index to
`constrained_dofs` and apply the penalty to `K_full`. -/
def applyConstraints (pIdx : Int → Option ℕ) (supports : List Support)
    (K0 : Mat) : Mat × List ℕ :=
  supports.foldl (constrainSupStep pIdx) (K0, [])

/-- `AssembledMatrices` dataclass (minus the point-id map, which callers
recompute with `pointIdToIdx`). -/
structure AssembledMatrices where
  K_full : Mat
  M_full : Mat
  F_ext : Vec
  free_dofs : List ℕ
  constrained_dofs : List ℕ
  nodal_masses : List ℚ

/-- `_assemble_matrices(model, x)`: member loop (stiffness scatter and
nodal masses), explicit point masses, diagonal mass matrix, load vector,
penalty boundary conditions and the free/constrained DOF partition.
`none` models an exception escaping from `_local_stiffness` or
`_transformation_3d`.  The free-DOF list is modelled in increasing
order (the source iterates a Python set difference of small ints). -/
def _assemble_matrices (sq : ℚ → ℚ) (model : Model) (x : Option Vec) :
    Option AssembledMatrices :=
  let dof := model.points.length * 6
  let pIdx := pointIdToIdx model.points
  let pos := currentPositions model.points x
  match model.members.foldlM (asmStep sq pos pIdx)
      { K := zeroMat, nm := model.points.map (fun _ => 0) } with
  | none => none
  | some acc =>
    let nm := addExplicitMasses model.points acc.nm
    let M_full : Mat := fun i j => if i = j then massDiag nm i else 0
    let F_ext := buildFext model.loads pIdx
    let kc := applyConstraints pIdx model.supports acc.K
    let free_dofs := (List.range dof).filter (fun d => !(kc.2.contains d))
    some { K_full := kc.1, M_full := M_full, F_ext := F_ext,
           free_dofs := free_dofs, constrained_dofs := kc.2,
           nodal_masses := nm }

-- =============================================================================
-- DOF REDUCTION (`_create_reduced_system`, `_map_reduced_to_full`)
-- =============================================================================

/-- `_create_reduced_system`: select the free-DOF rows/columns of
`K_full`/`M_full`/`F_ext`. -/
def _create_reduced_system (am : AssembledMatrices) : Mat × Mat × Vec :=
  let free := am.free_dofs
  let n := free.length
  (fun i j => if i < n ∧ j < n then am.K_full (free.getD i 0) (free.getD j 0) else 0,
   fun i j => if i < n ∧ j < n then am.M_full (free.getD i 0) (free.getD j 0) else 0,
   fun i => if i < n then am.F_ext (free.getD i 0) else 0)

/-- Restriction `[x[d] for d in free_dofs]`. -/
def restrictVec (free : List ℕ) (x : Vec) : Vec :=
  fun i => if i < free.length then x (free.getD i 0) else 0

/-- Scatter a reduced vector back to full length, zero elsewhere
(used for `x_full`/`v_full`/`a_full`; constrained entries are zero). -/
def scatterFree (free : List ℕ) (xr : Vec) : Vec :=
  fun d => if free.contains d then xr (free.indexOf d) else 0

/-- `_map_reduced_to_full`: free entries from the reduced vectors,
constrained entries forced to zero. -/
def _map_reduced_to_full (x_r v_r : Vec) (free _constrained : List ℕ) :
    Vec × Vec :=
  (scatterFree free x_r, scatterFree free v_r)

-- =============================================================================
-- MEMBER FORCES AND STRESSES (`_calculate_member_forces`,
-- `_calculate_member_stresses`, engine.py lines 788-928)
-- =============================================================================

/-- `_calculate_member_forces(model, displacements, point_id_to_idx)`:
per intact member with resolvable, non-degenerate current geometry,
local end forces from `k_local @ (T @ u)`; axial = first local DOF,
shear / moment = root-sum-squares of the transverse components.
Members whose element matrices raise are skipped (the `try`/`except`). -/
def _calculate_member_forces (sq : ℚ → ℚ) (model : Model)
    (displacements : Vec) (pIdx : Int → Option ℕ) :
    List (ℕ × (ℚ × ℚ × ℚ)) :=
  model.members.enum.filterMap (fun q =>
    let m_idx := q.1
    let m := q.2
    if m.is_broken then none
    else
      match pIdx m.start, pIdx m.end_ with
      | some si, some ei =>
        let sp0 := (model.points.getD si ⟨0, 0, 0, 0, 0⟩)
        let ep0 := (model.points.getD ei ⟨0, 0, 0, 0, 0⟩)
        let sp := (sp0.x + displacements (si * 6), sp0.y + displacements (si * 6 + 1),
                   sp0.z + displacements (si * 6 + 2))
        let ep := (ep0.x + displacements (ei * 6), ep0.y + displacements (ei * 6 + 1),
                   ep0.z + displacements (ei * 6 + 2))
        let dx := ep.1 - sp.1
        let dy := ep.2.1 - sp.2.1
        let dz := ep.2.2 - sp.2.2
        let L := sq (dx ^ 2 + dy ^ 2 + dz ^ 2)
        if L = 0 then none
        else if L > 10 ^ 6 then none
        else if L > 10 ^ 3 ∨ L < 1 / 10 ^ 6 then none
        else
          match _local_stiffness m.E m.A m.Iz m.Iy m.G m.J L,
                _transformation_3d sq sp ep with
          | some kl, some T =>
            let u : Vec := fun a =>
              if a < 6 then displacements (si * 6 + a) else displacements (ei * 6 + (a - 6))
            let u_local := matVec 12 T u
            let f_local := matVec 12 kl u_local
            let axial := f_local 0
            let shear := sq (f_local 1 ^ 2 + f_local 2 ^ 2)
            let momnt := sq (f_local 4 ^ 2 + f_local 5 ^ 2)
            some (m_idx, (axial, shear, momnt))
          | _, _ => none
      | _, _ => none)

/-- Dictionary lookup on an association list keyed by member index. -/
def lookupIdx {σ : Type} (ms : List (ℕ × σ)) (i : ℕ) : Option σ :=
  ((ms.filter (fun q => q.1 == i)).head?).map (fun q => q.2)

/-- `_calculate_member_stresses(model, member_forces)`: axial stress
`axial/A`, shear stress `shear/(A*1.5)` (fixed rectangular factor),
bending stress `max(|M*y_max/Iz|, |M*z_max/Iy|)` when `A > 0` and
`Iz > 0`.  The `isfinite` guards of the source are identically true for
exact rationals (where division by zero yields 0), and the
zero-area guards are the explicit conditionals.  Output tuples are
`(tensile, compressive, shear, bending)`. -/
def _calculate_member_stresses (model : Model)
    (member_forces : List (ℕ × (ℚ × ℚ × ℚ))) :
    List (ℕ × (ℚ × ℚ × ℚ × ℚ)) :=
  model.members.enum.filterMap (fun q =>
    let m_idx := q.1
    let m := q.2
    if m.is_broken then none
    else
      match lookupIdx member_forces m_idx with
      | none => none
      | some f =>
        let axial_stress := if m.A ≠ 0 then f.1 / m.A else 0
        let shear_stress := if m.A ≠ 0 then f.2.1 / (m.A * (3 / 2)) else 0
        let bending_stress :=
          if m.A > 0 ∧ m.Iz > 0 then
            max |f.2.2 * m.y_max / m.Iz| |f.2.2 * m.z_max / m.Iy|
          else 0
        some (m_idx, (max axial_stress 0, max (-axial_stress) 0,
                      |shear_stress|, |bending_stress|)))

-- =============================================================================
-- FAILURE STATE MACHINE (`_check_member_failure`, engine.py lines 931-971)
-- =============================================================================

/-- `STRESS_CHECK_THRESHOLD = 1e-12`. -/
def STRESS_CHECK_THRESHOLD : ℚ := 1 / 10 ^ 12

/-- The four stress/strength ratios `(tensile, compressive, shear,
bending)` with the zero-strength guards of the source. -/
def failureRatios (m : Member) (s : ℚ × ℚ × ℚ × ℚ) : ℚ × ℚ × ℚ × ℚ :=
  (if m.tensile_strength ≠ 0 then s.1 / m.tensile_strength else 0,
   if m.compressive_strength ≠ 0 then s.2.1 / m.compressive_strength else 0,
   if m.shear_strength ≠ 0 then s.2.2.1 / m.shear_strength else 0,
   if m.bending_strength ≠ 0 then s.2.2.2 / m.bending_strength else 0)

/-- Mark a member broken at time `t` with the given failure mode. -/
def breakMember (m : Member) (t : ℚ) (mode : String) : Member :=
  { m with is_broken := true, break_time := some t, failure_mode := some mode }

/-- The per-member body of `_check_member_failure`: skip when all four
stresses are below the tiny threshold; otherwise the `if`/`elif` chain
in the fixed priority order tensile, compressive, shear, bending.
Returns the updated member and whether it newly broke. -/
def checkFailOne (m : Member) (s : ℚ × ℚ × ℚ × ℚ) (t : ℚ) : Member × Bool :=
  if |s.1| < STRESS_CHECK_THRESHOLD ∧ |s.2.1| < STRESS_CHECK_THRESHOLD ∧
     |s.2.2.1| < STRESS_CHECK_THRESHOLD ∧ |s.2.2.2| < STRESS_CHECK_THRESHOLD then
    (m, false)
  else
    let r := failureRatios m s
    if r.1 > 1 then (breakMember m t "tensile", true)
    else if r.2.1 > 1 then (breakMember m t "compressive", true)
    else if r.2.2.1 > 1 then (breakMember m t "shear", true)
    else if r.2.2.2 > 1 then (breakMember m t "bending", true)
    else (m, false)

/-- `_check_member_failure(model, member_stresses, current_time)`:
already-broken members and members without computed stresses are left
untouched; returns the updated member list and the indices that newly
broke (in increasing index order, as the source loop appends them). -/
def _check_member_failure (members : List Member)
    (member_stresses : List (ℕ × (ℚ × ℚ × ℚ × ℚ))) (current_time : ℚ) :
    List Member × List ℕ :=
  let processed := members.enum.map (fun q =>
    if q.2.is_broken then (q.2, (none : Option ℕ))
    else
      match lookupIdx member_stresses q.1 with
      | none => (q.2, none)
      | some s =>
        let r := checkFailOne q.2 s current_time
        (r.1, if r.2 then some q.1 else none))
  (processed.map (fun p => p.1), processed.filterMap (fun p => p.2))

-- =============================================================================
-- TIME-VARYING LOADS (`_get_load_at_time`, engine.py lines 974-1008)
-- =============================================================================

/-- Scale all six load components. -/
def scale6 (c : ℚ) (b : Vec6) : Vec6 :=
  (b.1 * c, b.2.1 * c, b.2.2.1 * c, b.2.2.2.1 * c, b.2.2.2.2.1 * c, b.2.2.2.2.2 * c)

/-- The all-zero six-tuple. -/
def zero6 : Vec6 := (0, 0, 0, 0, 0, 0)

/-- The base `(fx, fy, fz, mx, my, mz)` components of a load. -/
def baseComponents (load : Load) : Vec6 :=
  (load.fx, load.fy, load.fz, load.mx, load.my, load.mz)

/-- `_get_load_at_time(load, time)`, translated from the source's
branch structure.  `sinq c` stands for `sin(2*π*c)`, so the sinusoidal
factor `np.sin(2*np.pi*frequency*(time-start_time))` is
`sinq (frequency * (time - start_time))`. -/
def _get_load_at_time (sinq : ℚ → ℚ) (load : Load) (time : ℚ) : Vec6 :=
  let base := baseComponents load
  match load.time_function with
  | none => base
  | some tf =>
    if tf = "constant" then base
    else if tf = "ramp" then
      let factor :=
        if time < load.start_time then 0
        else if time > load.start_time + load.duration then 1
        else (time - load.start_time) / load.duration
      scale6 factor base
    else if tf = "impulse" then
      if load.start_time ≤ time ∧ time ≤ load.start_time + load.duration then base
      else zero6
    else if tf = "sinusoidal" then
      if time ≥ load.start_time then
        scale6 (sinq (load.frequency * (time - load.start_time))) base
      else zero6
    else base

/-- Clamp to an interval. -/
def clampQ (q lo hi : ℚ) : ℚ := max lo (min hi q)

/-- The load evaluator exactly as the CLAIM words it (refinement
reference, not translated from the source): constant/unspecified →
base; ramp → base × clamp((t−start)/duration, 0, 1); impulse → base on
`[start, start+duration]` else zero; sinusoidal → base ×
sin(2π·frequency·(t−start)) for `t ≥ start` else zero.  Inputs outside
the claim's enumeration keep the base values. -/
def loadAtTimeSpec (sinq : ℚ → ℚ) (load : Load) (time : ℚ) : Vec6 :=
  let base := baseComponents load
  match load.time_function with
  | none => base
  | some tf =>
    if tf = "constant" then base
    else if tf = "ramp" then
      scale6 (clampQ ((time - load.start_time) / load.duration) 0 1) base
    else if tf = "impulse" then
      if load.start_time ≤ time ∧ time ≤ load.start_time + load.duration then base
      else zero6
    else if tf = "sinusoidal" then
      if time ≥ load.start_time then
        scale6 (sinq (load.frequency * (time - load.start_time))) base
      else zero6
    else base

-- =============================================================================
-- DYNAMIC SOLVER (`solve`, engine.py lines 1011-1209)
-- =============================================================================

/-- Abstract numerical environment: `sq` models `** 0.5`, `sinq c`
models `sin(2*π*c)`, `linsolve n M F` models `np.linalg.solve` on an
n×n system (`none` = `LinAlgError`), and `piq` models `np.pi`. -/
structure Env where
  sq : ℚ → ℚ
  sinq : ℚ → ℚ
  linsolve : ℕ → Mat → Vec → Option Vec
  piq : ℚ

/-- `_compute_rayleigh_damping_coefficients(target, 1.0, 10.0)`:
the 2×2 system is solved exactly (Cramer); a zero determinant models
the `LinAlgError` fallback to `(DEFAULT_ALPHA, DEFAULT_BETA) = (0.02, 0.02)`. -/
def _compute_rayleigh_damping_coefficients (piq zeta : ℚ) : ℚ × ℚ :=
  let omega1 := 2 * piq * 1
  let omega2 := 2 * piq * 10
  let a11 := 1 / (2 * omega1)
  let a12 := omega1 / 2
  let a21 := 1 / (2 * omega2)
  let a22 := omega2 / 2
  let det := a11 * a22 - a12 * a21
  if det = 0 then (1 / 50, 1 / 50)
  else ((zeta * a22 - a12 * zeta) / det, (a11 * zeta - zeta * a21) / det)

/-- `np.arange(0, simulation_time + step, step)` followed by the filter
`time_steps <= simulation_time + 1e-10`, for positive `step` (for
non-positive `step` the list is empty; `np.arange` with `step = 0`
raises). -/
def timeSteps (step simulation_time : ℚ) : List ℚ :=
  ((List.range (Int.toNat ⌈(simulation_time + step) / step⌉)).map
      (fun i => (i : ℚ) * step)).filter
    (fun t => t ≤ simulation_time + 1 / 10 ^ 10)

/-- The reset at the top of `solve`: every member's failure state is
forced back to intact. -/
def resetMembers (model : Model) : Model :=
  { model with
    members := model.members.map (fun m =>
      { m with is_broken := false, break_time := none, failure_mode := none }) }

/-- Add the time-varying delta `(value at t) − (base value)` of every
load whose point exists (the assembler's `F_ext` already holds the base
components). -/
def addTimeVaryingLoads (sinq : ℚ → ℚ) (loads : List Load)
    (pIdx : Int → Option ℕ) (t : ℚ) (F : Vec) : Vec :=
  loads.foldl
    (fun F load =>
      match pIdx load.point with
      | some i =>
        let lv := _get_load_at_time sinq load t
        addAt (addAt (addAt (addAt (addAt (addAt F
          (i * 6) (lv.1 - load.fx))
          (i * 6 + 1) (lv.2.1 - load.fy))
          (i * 6 + 2) (lv.2.2.1 - load.fz))
          (i * 6 + 3) (lv.2.2.2.1 - load.mx))
          (i * 6 + 4) (lv.2.2.2.2.1 - load.my))
          (i * 6 + 5) (lv.2.2.2.2.2 - load.mz)
      | none => F)
    F

/-- Gravity `-m*g` on the vertical translational DOF of every node with
positive nodal mass, skipping constrained DOFs. -/
def addGravity (F : Vec) (nm : List ℚ) (constrained : List ℕ) (g : ℚ) : Vec :=
  nm.enum.foldl
    (fun F q =>
      if q.2 > 0 then
        (if constrained.contains (q.1 * 6 + 1) then F
         else addAt F (q.1 * 6 + 1) (-q.2 * g))
      else F)
    F

/-- Reaction vector: zero except at constrained DOFs of supports, which
copy the entry of `K_full @ x_new`. -/
def reactionsFromSupports (supports : List Support) (pIdx : Int → Option ℕ)
    (internal : Vec) : Vec :=
  supports.foldl
    (fun rv sup =>
      match pIdx sup.point with
      | none => rv
      | some pi =>
        (flagsOf sup).enum.foldl
          (fun rv2 q =>
            if q.2 then
              (fun j => if j = pi * 6 + q.1 then internal (pi * 6 + q.1) else rv2 j)
            else rv2)
          rv)
    zeroVec

/-- `np.any(np.isnan(v)) or np.any(np.isinf(v))`: identically false for
exact rationals, which have no NaN or Inf. -/
def hasNanInf (_n : ℕ) (_v : Vec) : Bool := false

/-- `np.any(np.abs(v) > c)` over the first `n` entries. -/
def anyAbsGt (n : ℕ) (v : Vec) (c : ℚ) : Bool :=
  (List.range n).any (fun i => c < |v i|)

/-- `np.clip(v, -c, c)`. -/
def clipVec (c : ℚ) (v : Vec) : Vec := fun i => min c (max (-c) (v i))

/-- `np.max(np.abs(v))` over the first `n` entries (0 when `n = 0`;
the source would raise on an empty vector, but the loop runs only for
non-empty point lists). -/
def maxAbs (n : ℕ) (v : Vec) : ℚ :=
  ((List.range n).map (fun i => |v i|)).foldl max 0

/-- The displacement vector after the `np.clip` rebinding (applied only
when some entry exceeds the 1e3 ceiling).  The source drops this array:
it is read only by the runaway-displacement check. -/
def clippedX (n : ℕ) (x : Vec) : Vec :=
  if anyAbsGt n x (10 ^ 3) then clipVec (10 ^ 3) x else x

/-- The post-step block of `solve` (engine.py lines 1186-1206), run
AFTER `x = x_new; v = v_new`: NaN/Inf replacement (vacuous on ℚ),
velocity and displacement clipping, and the runaway-displacement check
on the clipped vector.  `numpy`'s `nan_to_num`/`clip` return fresh
arrays bound to the local names `v_new`/`x_new` only, so the function
returns just the recorded issues and the break flag — the sanitised
vectors themselves are dropped by the source. -/
def postStepSanitize (n : ℕ) (t : ℚ) (x_new v_new : Vec) :
    List String × Bool :=
  let is1 := if hasNanInf n v_new then
      [s!"Numerical instability in velocity at time {t}"] else []
  let is2 := if hasNanInf n x_new then
      [s!"Numerical instability in displacement at time {t}"] else []
  let is3 :=
    if anyAbsGt n v_new (10 ^ 4) then [s!"Velocity limited at time {t}"] else []
  let is4 :=
    if anyAbsGt n x_new (10 ^ 3) then [s!"Displacement limited at time {t}"] else []
  let max_disp := maxAbs n (clippedX n x_new)
  let stop : Bool := decide (max_disp > 10 ^ 6)
  let is5 := if stop then [s!"Very large displacements detected: {max_disp}"] else []
  (is1 ++ is2 ++ is3 ++ is4 ++ is5, stop)

/-- Six consecutive entries of a vector as a tuple. -/
def vec6At (v : Vec) (base : ℕ) : Vec6 :=
  (v base, v (base + 1), v (base + 2), v (base + 3), v (base + 4), v (base + 5))

/-- `round(t, 4)` (Python rounds half to even; exact ties at the fifth
decimal do not occur on the claims below). -/
def round4 (q : ℚ) : ℚ := ((⌊q * 10 ^ 4 + 1 / 2⌋ : ℤ) : ℚ) / 10 ^ 4

/-- The unconstrained (full 6N-DOF) integration branch of `solve`'s
loop: Rayleigh damping `C = αM + βK`, `M·a = F − K·x − C·v` with the
singular-mass fallback `a = 0`, then semi-implicit Euler.  Returns
`(x_new, v_new, a_full, issues)`. -/
def integrateFull (env : Env) (am : AssembledMatrices) (dof : ℕ)
    (alpha beta step : ℚ) (F_time x v : Vec) (t : ℚ) :
    Vec × Vec × Vec × List String :=
  let C := matAdd (matSmul alpha am.M_full) (matSmul beta am.K_full)
  let F_eff := vecSub (vecSub F_time (matVec dof am.K_full x)) (matVec dof C v)
  match env.linsolve dof am.M_full F_eff with
  | some a =>
    let vn := vecAdd v (vecSmul step a)
    (vecAdd x (vecSmul step vn), vn, a, ([] : List String))
  | none =>
    let a := zeroVec
    let vn := vecAdd v (vecSmul step a)
    (vecAdd x (vecSmul step vn), vn, a, [s!"Singular mass matrix at time {t}"])

/-- The constrained (reduced free-DOF) integration branch of `solve`'s
loop: reduce, integrate on the free DOFs, scatter back with constrained
entries forced to zero.  Returns `(x_new, v_new, a_full, issues)`. -/
def integrateReduced (env : Env) (am : AssembledMatrices)
    (alpha beta step : ℚ) (F_time x v : Vec) (t : ℚ) :
    Vec × Vec × Vec × List String :=
  let rs := _create_reduced_system am
  let free := am.free_dofs
  let nf := free.length
  let F_r : Vec := fun i => if i < nf then F_time (free.getD i 0) else 0
  let x_r := restrictVec free x
  let v_r := restrictVec free v
  let C_r := matAdd (matSmul alpha rs.2.1) (matSmul beta rs.1)
  let F_eff := vecSub (vecSub F_r (matVec nf rs.1 x_r)) (matVec nf C_r v_r)
  let ai :=
    match env.linsolve nf rs.2.1 F_eff with
    | some a => (a, ([] : List String))
    | none => (zeroVec, [s!"Singular mass matrix at time {t}"])
  let v_new_r := vecAdd v_r (vecSmul step ai.1)
  let x_new_r := vecAdd x_r (vecSmul step v_new_r)
  let mr := _map_reduced_to_full x_new_r v_new_r free am.constrained_dofs
  (mr.1, mr.2, scatterFree free ai.1, ai.2)

/-- Branch selection of the integrator: the full system when the model
was classified unconstrained, the reduced free-DOF system otherwise. -/
def integrate (env : Env) (unconstrained : Bool) (am : AssembledMatrices)
    (dof : ℕ) (alpha beta step : ℚ) (F_time x v : Vec) (t : ℚ) :
    Vec × Vec × Vec × List String :=
  if unconstrained then integrateFull env am dof alpha beta step F_time x v t
  else integrateReduced env am alpha beta step F_time x v t

/-- Result of one iteration of the time-integration loop.  `x`/`v` are
the vectors carried into the next iteration: the source binds
`x = x_new; v = v_new` BEFORE the post-step sanitisation, whose fresh
clipped arrays are never stored back. -/
structure StepResult where
  model : Model
  x : Vec
  v : Vec
  frame : Frame
  brokenAcc : List ℕ
  stop : Bool

/-- One iteration of `solve`'s time loop (engine.py lines 1065-1206):
assembly at the current geometry, time-varying loads and gravity,
semi-implicit Euler on the full (unconstrained) or reduced
(constrained) system with the singular-mass fallback, reactions from a
reassembly at `x_new` (its failure is caught), member forces, stresses,
failure check, frame construction (first-frame velocities zeroed), and
the post-step sanitisation. -/
def stepOnce (env : Env) (model : Model) (alpha beta g step : ℚ)
    (x v : Vec) (t : ℚ) (t_idx : ℕ) (brokenAcc : List ℕ) :
    Option StepResult :=
  let dof := model.points.length * 6
  let pIdx := pointIdToIdx model.points
  match _assemble_matrices env.sq model (some x) with
  | none => none
  | some am =>
    let F_time0 := addTimeVaryingLoads env.sinq model.loads pIdx t am.F_ext
    let F_time := addGravity F_time0 am.nodal_masses am.constrained_dofs g
    let intg := integrate env (_is_unconstrained_system model) am dof alpha beta
      step F_time x v t
    let x_new := intg.1
    let v_new := intg.2.1
    let a_full := intg.2.2.1
    let issues1 := intg.2.2.2
    let react :=
      match _assemble_matrices env.sq model (some x_new) with
      | some am2 =>
        (reactionsFromSupports model.supports pIdx (matVec dof am2.K_full x_new),
         ([] : List String))
      | none => (zeroVec, [s!"Error calculating reactions at time {t}"])
    let mf := _calculate_member_forces env.sq model x_new pIdx
    let ms := _calculate_member_stresses model mf
    let chk := _check_member_failure model.members ms t
    let brokenAcc2 := brokenAcc ++ chk.2
    let positions := model.points.enum.map (fun q =>
      (q.2.id, (q.2.x + x_new (q.1 * 6), q.2.y + x_new (q.1 * 6 + 1),
                q.2.z + x_new (q.1 * 6 + 2))))
    let velocities :=
      if t_idx = 0 then model.points.map (fun p => (p.id, zero6))
      else model.points.enum.map (fun q => (q.2.id, vec6At v_new (q.1 * 6)))
    let accelerations := model.points.enum.map (fun q => (q.2.id, vec6At a_full (q.1 * 6)))
    let reactions := model.points.enum.map (fun q => (q.2.id, vec6At react.1 (q.1 * 6)))
    let san := postStepSanitize dof t x_new v_new
    let frame : Frame :=
      { time := round4 t, positions := positions, velocities := velocities,
        accelerations := accelerations, reactions := reactions,
        member_forces := mf, member_stresses := ms,
        broken_members := brokenAcc2, issues := issues1 ++ react.2 ++ san.1 }
    some { model := { model with members := chk.1 }, x := x_new, v := v_new,
           frame := frame, brokenAcc := brokenAcc2, stop := san.2 }

/-- The time-integration loop: one `stepOnce` per time step, carrying
the (unsanitised) state; a raised exception (`none`) propagates; the
runaway break returns the frames produced so far. -/
def runLoop (env : Env) (alpha beta g step : ℚ) (model : Model)
    (x v : Vec) (ts : List ℚ) (t_idx : ℕ) (brokenAcc : List ℕ)
    (acc : List Frame) : Option (List Frame × Model) :=
  match ts with
  | [] => some (acc.reverse, model)
  | t :: rest =>
    match stepOnce env model alpha beta g step x v t t_idx brokenAcc with
    | none => none
    | some r =>
      if r.stop then some ((r.frame :: acc).reverse, r.model)
      else runLoop env alpha beta g step r.model r.x r.v rest (t_idx + 1)
             r.brokenAcc (r.frame :: acc)

/-- Write a six-tuple into a vector at consecutive DOFs. -/
def set6 (x : Vec) (base : ℕ) (d : Vec6) : Vec := fun j =>
  if j = base then d.1
  else if j = base + 1 then d.2.1
  else if j = base + 2 then d.2.2.1
  else if j = base + 3 then d.2.2.2.1
  else if j = base + 4 then d.2.2.2.2.1
  else if j = base + 5 then d.2.2.2.2.2
  else x j

/-- Seed the displacement vector from caller-supplied initial
displacements for points that exist. -/
def applyInitialDisplacements (pIdx : Int → Option ℕ)
    (idisp : List (Int × Vec6)) (x : Vec) : Vec :=
  idisp.foldl
    (fun x q =>
      match pIdx q.1 with
      | some i => set6 x (i * 6) q.2
      | none => x)
    x

/-- Everything `solve` does after the member reset: the empty-points
early return, time-step construction, Rayleigh coefficients, initial
state, and the integration loop.  `us` is the global unit manager's
display system tag (`get_unit_manager().system`). -/
def solveFromReset (env : Env) (us : String) (model : Model)
    (step simulation_time zeta : ℚ) (idisp : Option (List (Int × Vec6)))
    (gravity : Option ℚ) : Option (Results × Model) :=
  if model.points.isEmpty then
    some ({ frames := [], unit_system := us, final_time := 0, total_frames := 0 },
          model)
  else
    let ts := timeSteps step simulation_time
    let g := gravity.getD (981 / 100)
    let pIdx := pointIdToIdx model.points
    let ab := _compute_rayleigh_damping_coefficients env.piq zeta
    let x0 := match idisp with
      | some l => applyInitialDisplacements pIdx l zeroVec
      | none => zeroVec
    match runLoop env ab.1 ab.2 g step model x0 zeroVec ts 0 [] [] with
    | none => none
    | some (frames, model2) =>
      some ({ frames := frames, unit_system := us,
              final_time := (ts.getLast?).getD 0, total_frames := frames.length },
            model2)

/-- `solve(model, step, simulation_time, damping_ratio,
initial_displacements, gravity)`: reset every member's failure state,
then run the dynamic integration.  Returns the `Results` and the final
(mutated) model. -/
def solve (env : Env) (us : String) (model : Model)
    (step simulation_time zeta : ℚ) (idisp : Option (List (Int × Vec6)))
    (gravity : Option ℚ) : Option (Results × Model) :=
  solveFromReset env us (resetMembers model) step simulation_time zeta idisp gravity

-- =============================================================================
-- STATIC SOLVER WITH DIAGNOSTICS (spec §4.9 / §6)
-- =============================================================================

/-- Modelled from the spec: the raw global stiffness and load vector of
the one-shot static path, which "builds the same kind of global
stiffness from current (unchanging) geometry" — the assembler's member
loop and load accumulation, before any boundary conditions.  The
definition of `solve_with_diagnostics` (and this assembly step) is
missing from `src/` — `src/timber/__init__.py` imports it from
`.engine`, but `engine.py` ends at `solve`. -/
def staticAssemble (sq : ℚ → ℚ) (model : Model) : Option (Mat × Vec) :=
  let pIdx := pointIdToIdx model.points
  let pos := currentPositions model.points none
  match model.members.foldlM (asmStep sq pos pIdx)
      { K := zeroMat, nm := model.points.map (fun _ => 0) } with
  | none => none
  | some acc => some (acc.K, buildFext model.loads pIdx)

/-- Modelled from the spec: true-elimination boundary condition at DOF
`d` — "zeroing rows/columns and setting the diagonal to 1 (true
elimination, not penalty)". -/
def applyElimination (K : Mat) (d : ℕ) : Mat := fun i j =>
  if i = d ∨ j = d then (if i = j then 1 else 0) else K i j

/-- Modelled from the spec: one `(flag index, flag)` of a support at
point index `pi` in the elimination pass. -/
def elimFlagStep (pi : ℕ) (acc2 : Mat × List ℕ) (q : ℕ × Bool) :
    Mat × List ℕ :=
  if q.2 then (applyElimination acc2.1 (pi * 6 + q.1), acc2.2 ++ [pi * 6 + q.1])
  else acc2

/-- Modelled from the spec: one support record in the elimination pass. -/
def elimSupStep (pIdx : Int → Option ℕ) (acc : Mat × List ℕ)
    (sup : Support) : Mat × List ℕ :=
  match pIdx sup.point with
  | none => acc
  | some pi => (flagsOf sup).enum.foldl (elimFlagStep pi) acc

/-- Modelled from the spec: apply the elimination boundary condition
for every true constraint flag of every support whose point exists,
collecting the constrained DOF indices. -/
def applyBCElim (pIdx : Int → Option ℕ) (supports : List Support)
    (K0 : Mat) : Mat × List ℕ :=
  supports.foldl (elimSupStep pIdx) (K0, [])

/-- Displacements and reactions of the one-shot static solve. -/
structure StaticOutcome where
  displacements : Vec
  reactions : Vec
  usedLstsq : Bool

/-- Modelled from the spec: the diagnostic issue strings of the static
path, in the spec's order — instability/under-constraint (the direct
solve failed and the least-squares fallback was used),
very-large-displacement (`max|d| > 1e6`), no-supports-defined,
member-references-missing-point, and zero-length-member (first
offending member only). -/
def staticIssues (sq : ℚ → ℚ) (model : Model) (dof : ℕ)
    (usedLstsq : Bool) (d : Vec) : List String :=
  let pIdx := pointIdToIdx model.points
  (if usedLstsq then ["Structure appears unstable or under-constrained"] else []) ++
  (if maxAbs dof d > 10 ^ 6 then ["Very large displacements computed"] else []) ++
  (if model.supports.isEmpty then ["No supports defined"] else []) ++
  (model.members.filterMap (fun m =>
    if (pIdx m.start).isNone ∨ (pIdx m.end_).isNone then
      some "Member references missing point"
    else none)) ++
  (match model.members.find? (fun m =>
      match pIdx m.start, pIdx m.end_ with
      | some si, some ei =>
        let sp := (currentPositions model.points none).getD si (0, 0, 0)
        let ep := (currentPositions model.points none).getD ei (0, 0, 0)
        decide (sq ((ep.1 - sp.1) ^ 2 + (ep.2.1 - sp.2.1) ^ 2 + (ep.2.2 - sp.2.2) ^ 2) = 0)
      | _, _ => false) with
   | some _ => ["Zero-length member"]
   | none => [])

/-- Modelled from the spec: `solve_with_diagnostics(model)` — the
one-shot static solve (no time stepping, no mass/damping).  Builds the
global stiffness and load vector, applies elimination boundary
conditions, solves `K·d = F` directly and falls back to a least-squares
solve (`lstsq`, total) when `K` is singular (`linsolve` returns
`none`), computes reactions as `K_full·d − F_ext`, and returns the
ordered diagnostics list. -/
def solve_with_diagnostics (sq : ℚ → ℚ)
    (linsolve : ℕ → Mat → Vec → Option Vec) (lstsq : ℕ → Mat → Vec → Vec)
    (model : Model) : Option (StaticOutcome × List String) :=
  let dof := model.points.length * 6
  let pIdx := pointIdToIdx model.points
  match staticAssemble sq model with
  | none => none
  | some kf =>
    let K_bc := (applyBCElim pIdx model.supports kf.1).1
    let du :=
      match linsolve dof K_bc kf.2 with
      | some d0 => (d0, false)
      | none => (lstsq dof K_bc kf.2, true)
    let reactions := vecSub (matVec dof kf.1 du.1) kf.2
    some ({ displacements := du.1, reactions := reactions, usedLstsq := du.2 },
          staticIssues sq model dof du.2 du.1)

-- =============================================================================
-- SAMPLE VALUES (for witnesses and counterexamples)
-- =============================================================================

/-- `Material.wood()` (engine.py `DefaultMaterials.WOOD`), exact SI values. -/
def woodMaterial : Material :=
  { E := 12 * 10 ^ 9, G := 45 * 10 ^ 8, density := 500,
    tensile_strength := 4 * 10 ^ 7, compressive_strength := 3 * 10 ^ 7,
    shear_strength := 5 * 10 ^ 6, bending_strength := 6 * 10 ^ 7 }

/-- `Section.rectangular(0.1, 0.1)`, exact values. -/
def squareSection : Section :=
  { A := 1 / 100, Iy := 1 / 120000, Iz := 1 / 120000, J := 1 / 400000,
    y_max := 1 / 20, z_max := 1 / 20 }

/-- A concrete abstract-numerics environment for evaluation: identity
"square root", zero "sine", a linear solver that always reports a
singular matrix, and a rational stand-in for π. -/
def envId : Env :=
  { sq := fun q => q, sinq := fun _ => 0, linsolve := fun _ _ _ => none,
    piq := 355 / 113 }

-- =============================================================================
-- CLAIM C3 — local stiffness symmetry and (0,0) entry
-- =============================================================================

/-- Claim C3 counterexample: at E = A = Iy = Iz = G = J = 1 and
L = 2·10^6 > 0, `_local_stiffness` returns the all-zero matrix
(extreme-length branch), so the (0,0) entry is 0 and not A·E/L. -/
theorem C3_counterexample :
    _local_stiffness 1 1 1 1 1 1 (2 * 10 ^ 6) = some zeroMat ∧
    zeroMat 0 0 = 0 ∧ (0 : ℚ) ≠ 1 * 1 / (2 * 10 ^ 6) := by
  refine ⟨?_, rfl, by norm_num⟩
  unfold _local_stiffness
  rw [if_neg (by norm_num), if_pos (by norm_num)]

/-- Claim C3 (amended): for every positive E, A, Iy, Iz, G, J and every
L > 0, `_local_stiffness` succeeds and the returned 12×12 matrix is
symmetric; its (0,0) entry equals A·E/L provided additionally
L ≤ 1e6 (beyond that threshold the source deliberately returns the
all-zero matrix — still symmetric, but with (0,0) = 0). -/
theorem C3_local_stiffness_symmetric (E A Iy Iz G J L : ℚ)
    (_hE : 0 < E) (_hA : 0 < A) (_hIy : 0 < Iy) (_hIz : 0 < Iz)
    (_hG : 0 < G) (_hJ : 0 < J) (hL : 0 < L) :
    ∃ k, _local_stiffness E A Iz Iy G J L = some k ∧
      (∀ i j, k i j = k j i) ∧ (L ≤ 10 ^ 6 → k 0 0 = A * E / L) := by
  unfold _local_stiffness
  rw [if_neg (not_le.mpr hL)]
  by_cases h : L > 10 ^ 6
  · rw [if_pos h]
    exact ⟨zeroMat, rfl, fun _ _ => rfl, fun hle => absurd h (not_lt.mpr hle)⟩
  · rw [if_neg h]
    exact ⟨localK E A Iz Iy G J L, rfl, localK_symm E A Iz Iy G J L, fun _ => rfl⟩

/-- Witness for C3 at E = A = Iy = Iz = G = J = 1, L = 2. -/
theorem C3_witness :
    ∃ k, _local_stiffness 1 1 1 1 1 1 2 = some k ∧
      (∀ i j, k i j = k j i) ∧ ((2 : ℚ) ≤ 10 ^ 6 → k 0 0 = 1 * 1 / 2) :=
  C3_local_stiffness_symmetric 1 1 1 1 1 1 2 (by norm_num) (by norm_num)
    (by norm_num) (by norm_num) (by norm_num) (by norm_num) (by norm_num)

-- =============================================================================
-- CLAIM C8 — local stiffness error behaviour
-- =============================================================================

/-- Claim C8: `_local_stiffness` raises exactly when the member length
is non-positive (NaN and infinite lengths are not representable among
exact rationals), and for finite lengths beyond the extreme-length
threshold 1e6 it returns the all-zero 12×12 matrix instead of failing. -/
theorem C8_local_stiffness_error_iff (E A Iz Iy G J L : ℚ) :
    (_local_stiffness E A Iz Iy G J L = none ↔ L ≤ 0) ∧
    (10 ^ 6 < L → _local_stiffness E A Iz Iy G J L = some zeroMat) := by
  constructor
  · constructor
    · intro h
      by_contra hL
      unfold _local_stiffness at h
      rw [if_neg hL] at h
      split at h <;> exact Option.noConfusion h
    · intro h
      unfold _local_stiffness
      rw [if_pos h]
  · intro h
    unfold _local_stiffness
    rw [if_neg (not_le.mpr (lt_trans (by norm_num) h)), if_pos h]

/-- Witness for C8 at L = 3·10^6: the extreme-length hypothesis is
discharged and the zero matrix is returned. -/
theorem C8_witness :
    _local_stiffness 1 1 1 1 1 1 (3 * 10 ^ 6) = some zeroMat :=
  (C8_local_stiffness_error_iff 1 1 1 1 1 1 (3 * 10 ^ 6)).2 (by norm_num)

-- =============================================================================
-- CLAIM C4 — time-varying load evaluation
-- =============================================================================

theorem ramp_factor_eq_clamp (s d t : ℚ) (hd : 0 < d) :
    (if t < s then (0 : ℚ) else if t > s + d then 1 else (t - s) / d) =
      clampQ ((t - s) / d) 0 1 := by
  unfold clampQ
  split_ifs with h1 h2
  · have hneg : (t - s) / d < 0 := div_neg_of_neg_of_pos (by linarith) hd
    rw [min_eq_right (by linarith : (t - s) / d ≤ 1)]
    exact (max_eq_left hneg.le).symm
  · have h3 : 1 < (t - s) / d := (one_lt_div hd).mpr (by linarith)
    rw [min_eq_left h3.le]
    exact (max_eq_right (by norm_num)).symm
  · have h4 : 0 ≤ (t - s) / d := div_nonneg (by linarith) hd.le
    have h5 : (t - s) / d ≤ 1 := (div_le_one hd).mpr (by linarith)
    rw [min_eq_right h5, max_eq_right h4]

/-- Claim C4 (amended): `_get_load_at_time` returns the base components
for unspecified/"constant" loads, base·clamp((t−start)/duration, 0, 1)
for "ramp" loads PROVIDED duration > 0, the base components exactly on
[start, start+duration] and zero outside for "impulse", and
base·sin(2πf(t−start)) for t ≥ start and zero before for "sinusoidal". -/
theorem C4_get_load_at_time_spec (sinq : ℚ → ℚ) (load : Load) (t : ℚ)
    (hdur : load.time_function = some "ramp" → 0 < load.duration) :
    _get_load_at_time sinq load t = loadAtTimeSpec sinq load t := by
  unfold _get_load_at_time loadAtTimeSpec
  cases h : load.time_function with
  | none => rfl
  | some tf =>
    by_cases hc : tf = "constant"
    · simp [hc]
    · by_cases hr : tf = "ramp"
      · have hd : 0 < load.duration := hdur (by rw [h, hr])
        subst hr
        simp only [hc, if_false, if_true, reduceIte]
        rw [ramp_factor_eq_clamp load.start_time load.duration t hd]
      · by_cases hi : tf = "impulse"
        · simp [hc, hr, hi]
        · by_cases hs : tf = "sinusoidal"
          · simp [hc, hr, hi, hs]
          · simp [hc, hr, hi, hs]

/-- The ramp load with negative duration refuting claim C4 as stated. -/
def rampLoadNegDur : Load :=
  { point := 1, fx := 1, time_function := some "ramp", start_time := 0,
    duration := -1 }

/-- Counterexample to claim C4 as stated: for a ramp load with
duration = −1 (a value `Load` accepts) at t = start_time, the source
returns the full base components (ramp factor 1 because
t > start_time + duration), while the claim's clamp formula yields
clamp(0, 0, 1) = 0, i.e. all-zero components. -/
theorem C4_counterexample :
    _get_load_at_time (fun q => q) rampLoadNegDur 0 = (1, 0, 0, 0, 0, 0) ∧
    loadAtTimeSpec (fun q => q) rampLoadNegDur 0 = (0, 0, 0, 0, 0, 0) := by
  constructor <;>
      norm_num [_get_load_at_time, loadAtTimeSpec, rampLoadNegDur,
        baseComponents, scale6, clampQ, zero6] <;>
      decide

/-- Witness load for C4 with positive ramp duration. -/
def rampLoadPos : Load :=
  { point := 1, fx := 10, time_function := some "ramp", start_time := 0,
    duration := 2 }

/-- Witness for C4 at a ramp load with duration 2, t = 1. -/
theorem C4_witness :
    _get_load_at_time (fun q => q) rampLoadPos 1 =
      loadAtTimeSpec (fun q => q) rampLoadPos 1 :=
  C4_get_load_at_time_spec (fun q => q) rampLoadPos 1 (fun _ => by decide)

-- =============================================================================
-- CLAIM C7 — unconstrained-system classification and routing
-- =============================================================================

/-- Claim C7: `_is_unconstrained_system` is true exactly when the
supports list is empty; a model whose only support has all six flags
false is still classified constrained; and the integrator branch is
selected by exactly this classification — full 6N-DOF integration for
models without supports, the reduced free-DOF path otherwise. -/
theorem C7_unconstrained_iff_no_supports :
    (∀ model : Model, _is_unconstrained_system model = true ↔ model.supports = []) ∧
    (∀ (model : Model) (s : Support), model.supports = [s] →
       s.ux = false → s.uy = false → s.uz = false →
       s.rx = false → s.ry = false → s.rz = false →
       _is_unconstrained_system model = false) ∧
    (∀ env model am dof alpha beta step F x v t,
       integrate env (_is_unconstrained_system model) am dof alpha beta step F x v t =
         if model.supports = [] then
           integrateFull env am dof alpha beta step F x v t
         else integrateReduced env am alpha beta step F x v t) := by
  refine ⟨?_, ?_, ?_⟩
  · intro model
    unfold _is_unconstrained_system
    cases model.supports <;> simp
  · intro model s hs _ _ _ _ _ _
    unfold _is_unconstrained_system
    rw [hs]
    rfl
  · intro env model am dof alpha beta step F x v t
    unfold integrate _is_unconstrained_system
    cases h : model.supports <;> simp [h]

/-- Witness for C7: a model whose single support constrains nothing is
still classified constrained. -/
theorem C7_witness :
    _is_unconstrained_system
      ({ supports := [({ point := 1 } : Support)] } : Model) = false :=
  C7_unconstrained_iff_no_supports.2.1
    ({ supports := [({ point := 1 } : Support)] } : Model)
    ({ point := 1 } : Support) rfl rfl rfl rfl rfl rfl rfl

-- =============================================================================
-- CLAIM C6 — failure-state reset at the start of solve
-- =============================================================================

/-- Claim C6: `solve` begins by resetting every member's failure state —
it runs the remainder of the algorithm on `resetMembers model`, and
every member of `resetMembers model` has `is_broken = false`,
`break_time = none`, `failure_mode = none`, regardless of the failure
state the passed model carried (e.g. from a previous run). -/
theorem C6_solve_resets_failure_state :
    (∀ env us model step simt zeta idisp grav,
       solve env us model step simt zeta idisp grav =
         solveFromReset env us (resetMembers model) step simt zeta idisp grav) ∧
    (∀ model : Model, ∀ m ∈ (resetMembers model).members,
       m.is_broken = false ∧ m.break_time = none ∧ m.failure_mode = none) := by
  constructor
  · intro env us model step simt zeta idisp grav
    rfl
  · intro model m hm
    simp only [resetMembers, List.mem_map] at hm
    obtain ⟨m0, _, rfl⟩ := hm
    exact ⟨rfl, rfl, rfl⟩

/-- A member carrying stale failure state from a previous run. -/
def brokenSample : Member :=
  { start := 1, end_ := 2, material := woodMaterial, sect := squareSection,
    is_broken := true, break_time := some 3, failure_mode := some "shear" }

/-- The image of `brokenSample` under the reset. -/
def resetSample : Member :=
  { brokenSample with is_broken := false, break_time := none, failure_mode := none }

/-- Witness for C6: the reset of a model containing a broken member
yields a member with cleared failure state. -/
theorem C6_witness :
    resetSample.is_broken = false ∧ resetSample.break_time = none ∧
    resetSample.failure_mode = none :=
  C6_solve_resets_failure_state.2 { members := [brokenSample] } resetSample
    (List.mem_singleton.mpr rfl)

-- =============================================================================
-- CLAIM C10 — solve on a model without points
-- =============================================================================

/-- Claim C10: for every model whose points list is empty, `solve`
still performs the member failure-state reset and then returns a
`Results` with an empty frames list (defaults: final_time 0,
total_frames 0) without raising. -/
theorem C10_solve_empty_points (env : Env) (us : String) (model : Model)
    (step simt zeta : ℚ) (idisp : Option (List (Int × Vec6)))
    (grav : Option ℚ) (h : model.points = []) :
    solve env us model step simt zeta idisp grav =
      some ({ frames := [], unit_system := us, final_time := 0,
              total_frames := 0 },
            resetMembers model) := by
  simp [solve, solveFromReset, resetMembers, h]

/-- Witness for C10: the empty model. -/
theorem C10_witness :
    solve envId "metric" {} 1 1 (1 / 50) none none =
      some ({ frames := [], unit_system := "metric", final_time := 0,
              total_frames := 0 },
            resetMembers {}) :=
  C10_solve_empty_points envId "metric" {} 1 1 (1 / 50) none none rfl

-- =============================================================================
-- CLAIM C2 — post-step numerical-safety policy (code bug)
-- =============================================================================

theorem foldl_max_le (l : List ℚ) (init c : ℚ) (hi : init ≤ c)
    (h : ∀ q ∈ l, q ≤ c) : l.foldl max init ≤ c := by
  induction l generalizing init with
  | nil => simpa using hi
  | cons a rest ih =>
    simp only [List.foldl_cons]
    exact ih (max init a) (max_le hi (h a (List.mem_cons_self a rest)))
      (fun q hq => h q (List.mem_cons_of_mem a hq))

theorem maxAbs_le_of_bound (n : ℕ) (v : Vec) (c : ℚ) (hc : 0 ≤ c)
    (h : ∀ i, i < n → |v i| ≤ c) : maxAbs n v ≤ c := by
  unfold maxAbs
  refine foldl_max_le _ _ _ hc ?_
  intro q hq
  simp only [List.mem_map, List.mem_range] at hq
  obtain ⟨i, hi, rfl⟩ := hq
  exact h i hi

theorem clippedX_bounded (n : ℕ) (x : Vec) (i : ℕ) (hi : i < n) :
    |clippedX n x i| ≤ 10 ^ 3 := by
  unfold clippedX
  by_cases h : anyAbsGt n x (10 ^ 3) = true
  · rw [if_pos h]
    unfold clipVec
    rw [abs_le]
    constructor
    · exact le_min (by norm_num) (le_max_left _ _)
    · exact min_le_left _ _
  · rw [if_neg h]
    unfold anyAbsGt at h
    rw [List.any_eq_true] at h
    push_neg at h
    have := h i (List.mem_range.mpr hi)
    simpa using this

theorem postStepSanitize_no_stop (n : ℕ) (t : ℚ) (x v : Vec) :
    (postStepSanitize n t x v).2 = false := by
  show decide (maxAbs n (clippedX n x) > 10 ^ 6) = false
  rw [decide_eq_false_iff_not, not_lt]
  calc maxAbs n (clippedX n x)
      ≤ 10 ^ 3 := maxAbs_le_of_bound n _ _ (by norm_num) (clippedX_bounded n x)
    _ ≤ 10 ^ 6 := by norm_num

/-- The single-point model used to exhibit claim C2's divergence. -/
def onePointModel : Model := { points := [{ id := 1, x := 0, y := 0 }] }

/-- A runaway velocity state: 1e7 m/s on every DOF. -/
def bigVel : Vec := fun _ => 10 ^ 7

/-- Claim C2 (code bug): the post-step policy records the clipping and
instability issues, but (a) the runaway-displacement early termination
can NEVER fire — the source clips `x_new` to the 1e3 ceiling before
comparing its maximum against 1e6, so `stop` is identically false and the
step loop never terminates early; and (b) the sanitised vectors are not
the state carried into the next step — `x = x_new; v = v_new` runs
before sanitisation and `nan_to_num`/`clip` rebind fresh arrays, so the
carried state keeps the unclipped values.  Concretely: a single
unsupported point entering the step with velocity 1e7 on every DOF at
step = 1 s produces `x_new = 1e7`, records both clipping issues, yet
carries x = 1e7 (not the clipped 1e3) and does not stop even though
every displacement component exceeds 1e6. -/
theorem C2_sanitization_not_carried_and_no_early_exit :
    (∀ n t x v, (postStepSanitize n t x v).2 = false) ∧
    (∀ env model alpha beta g step x v t t_idx brokenAcc,
       (stepOnce env model alpha beta g step x v t t_idx brokenAcc).map
           StepResult.stop =
         (stepOnce env model alpha beta g step x v t t_idx brokenAcc).map
           (fun _ => false)) ∧
    ((stepOnce envId onePointModel 0 0 0 1 zeroVec bigVel 0 0 []).map
        (fun r => (r.x 1, r.stop, r.frame.issues)) =
      some (10 ^ 7, false,
        ["Singular mass matrix at time 0", "Velocity limited at time 0",
         "Displacement limited at time 0"])) := by
  refine ⟨postStepSanitize_no_stop, ?_, ?_⟩
  · intro env model alpha beta g step x v t t_idx brokenAcc
    unfold stepOnce
    cases h : _assemble_matrices env.sq model (some x) with
    | none => rfl
    | some am =>
      simp only [Option.map_some']
      congr 1
      exact postStepSanitize_no_stop _ _ _ _
  · with_unfolding_all rfl

-- =============================================================================
-- CLAIM C1 — failure state machine
-- =============================================================================

theorem checkFail_broken_preserved (members : List Member)
    (ms : List (ℕ × (ℚ × ℚ × ℚ × ℚ))) (t : ℚ) (i : ℕ) (m : Member)
    (hm : members.get? i = some m) (hb : m.is_broken = true) :
    (_check_member_failure members ms t).1.get? i = some m := by
  unfold _check_member_failure
  simp only [List.get?_map, List.get?_enum, hm, Option.map_some', hb, if_true]

theorem stepOnce_broken_preserved (env : Env) (model : Model)
    (alpha beta g step : ℚ) (x v : Vec) (t : ℚ) (t_idx : ℕ)
    (ba : List ℕ) (r : StepResult)
    (h : stepOnce env model alpha beta g step x v t t_idx ba = some r)
    (i : ℕ) (m : Member) (hm : model.members.get? i = some m)
    (hb : m.is_broken = true) : r.model.members.get? i = some m := by
  unfold stepOnce at h
  cases ha : _assemble_matrices env.sq model (some x) with
  | none => rw [ha] at h; exact Option.noConfusion h
  | some am =>
    rw [ha] at h
    obtain rfl := (Option.some_inj.mp h).symm
    exact checkFail_broken_preserved model.members _ t i m hm hb

theorem runLoop_broken_preserved (env : Env) (alpha beta g step : ℚ)
    (ts : List ℚ) : ∀ (model : Model) (x v : Vec) (t_idx : ℕ)
      (ba : List ℕ) (acc frames : List Frame) (model2 : Model),
      runLoop env alpha beta g step model x v ts t_idx ba acc =
        some (frames, model2) →
      ∀ i m, model.members.get? i = some m → m.is_broken = true →
        model2.members.get? i = some m := by
  induction ts with
  | nil =>
    intro model x v t_idx ba acc frames model2 h i m hm hb
    unfold runLoop at h
    obtain rfl := congrArg Prod.snd (Option.some_inj.mp h)
    exact hm
  | cons t rest ih =>
    intro model x v t_idx ba acc frames model2 h i m hm hb
    unfold runLoop at h
    split at h
    · exact Option.noConfusion h
    · rename_i r hs
      split at h
      · obtain rfl := congrArg Prod.snd (Option.some_inj.mp h)
        exact stepOnce_broken_preserved env model alpha beta g step x v t
          t_idx ba r hs i m hm hb
      · exact ih r.model r.x r.v (t_idx + 1) r.brokenAcc _ frames model2 h i m
          (stepOnce_broken_preserved env model alpha beta g step x v t
            t_idx ba r hs i m hm hb) hb

theorem asmStep_broken_skip (sq : ℚ → ℚ) (pos : List (ℚ × ℚ × ℚ))
    (pIdx : Int → Option ℕ) (acc : AsmAcc) (m : Member)
    (hb : m.is_broken = true) : asmStep sq pos pIdx acc m = some acc := by
  unfold asmStep
  rw [hb]
  rfl

/-- Claim C1: the per-run failure state machine.  (a) For an intact
member with computed stresses not all below the tiny check threshold,
`_check_member_failure` breaks it exactly when some stress/strength
ratio (with the zero-strength 0-ratio guards) exceeds 1, and the first
exceeding ratio in the fixed order tensile, compressive, shear, bending
determines the single `failure_mode` and sets `break_time` to the
current simulated time; (b) an already-broken member is skipped by the
check and left unchanged; (c) consequently one `solve` step never
un-breaks a member; (d) over the whole time loop Broken is terminal —
a member broken at any point stays broken, with the same break_time and
failure_mode, to the end of the run; (e) a broken member is skipped by
the assembly loop, contributing zero stiffness and zero nodal mass. -/
theorem C1_failure_state_machine :
    (∀ (m : Member) (s : ℚ × ℚ × ℚ × ℚ) (t : ℚ),
       m.is_broken = false →
       ¬(|s.1| < STRESS_CHECK_THRESHOLD ∧ |s.2.1| < STRESS_CHECK_THRESHOLD ∧
         |s.2.2.1| < STRESS_CHECK_THRESHOLD ∧ |s.2.2.2| < STRESS_CHECK_THRESHOLD) →
       (((checkFailOne m s t).1.is_broken = true) ↔
          (1 < (failureRatios m s).1 ∨ 1 < (failureRatios m s).2.1 ∨
           1 < (failureRatios m s).2.2.1 ∨ 1 < (failureRatios m s).2.2.2)) ∧
       (1 < (failureRatios m s).1 →
          (checkFailOne m s t).1 = breakMember m t "tensile") ∧
       (¬1 < (failureRatios m s).1 → 1 < (failureRatios m s).2.1 →
          (checkFailOne m s t).1 = breakMember m t "compressive") ∧
       (¬1 < (failureRatios m s).1 → ¬1 < (failureRatios m s).2.1 →
          1 < (failureRatios m s).2.2.1 →
          (checkFailOne m s t).1 = breakMember m t "shear") ∧
       (¬1 < (failureRatios m s).1 → ¬1 < (failureRatios m s).2.1 →
          ¬1 < (failureRatios m s).2.2.1 → 1 < (failureRatios m s).2.2.2 →
          (checkFailOne m s t).1 = breakMember m t "bending")) ∧
    (∀ members ms t i m, members.get? i = some m → m.is_broken = true →
       (_check_member_failure members ms t).1.get? i = some m) ∧
    (∀ env model alpha beta g step x v t t_idx ba r,
       stepOnce env model alpha beta g step x v t t_idx ba = some r →
       ∀ i m, model.members.get? i = some m → m.is_broken = true →
         r.model.members.get? i = some m) ∧
    (∀ env alpha beta g step ts model x v t_idx ba acc frames model2,
       runLoop env alpha beta g step model x v ts t_idx ba acc =
         some (frames, model2) →
       ∀ i m, model.members.get? i = some m → m.is_broken = true →
         model2.members.get? i = some m) ∧
    (∀ sq pos pIdx acc m, m.is_broken = true →
       asmStep sq pos pIdx acc m = some acc) := by
  refine ⟨?_, checkFail_broken_preserved, stepOnce_broken_preserved, ?_, asmStep_broken_skip⟩
  · intro m s t hb hs
    unfold checkFailOne
    rw [if_neg hs]
    dsimp only
    split_ifs with h1 h2 h3 h4 <;>
      refine ⟨?_, ?_, ?_, ?_, ?_⟩ <;>
        simp_all [breakMember]
  · intro env alpha beta g step ts model x v t_idx ba acc frames model2
    exact runLoop_broken_preserved env alpha beta g step ts model x v t_idx
      ba acc frames model2

/-- The intact wood member used in the C1 witness. -/
def intactSample : Member :=
  { start := 1, end_ := 2, material := woodMaterial, sect := squareSection }

/-- Witness for C1: an intact default-wood member evaluated at tensile
stress 8·10^7 Pa (twice the 4·10^7 Pa tensile strength, ratio 2 > 1)
breaks in tensile mode with break_time 3/2. -/
theorem C1_witness :
    (checkFailOne intactSample (8 * 10 ^ 7, 0, 0, 0) (3 / 2)).1 =
      breakMember intactSample (3 / 2) "tensile" :=
  ((C1_failure_state_machine.1 intactSample (8 * 10 ^ 7, 0, 0, 0) (3 / 2) rfl
      (by norm_num [STRESS_CHECK_THRESHOLD])).2.1
    (by norm_num [failureRatios, intactSample, woodMaterial,
      Member.tensile_strength]))

-- =============================================================================
-- CLAIM C5 — symmetry of the assembled stiffness matrix
-- =============================================================================

theorem tKt_symm (T k : Mat) (hk : ∀ i j, k i j = k j i) (i j : ℕ) :
    matMul 12 (matMul 12 (transpose T) k) T i j =
      matMul 12 (matMul 12 (transpose T) k) T j i := by
  unfold matMul transpose
  simp only [Finset.sum_mul]
  rw [Finset.sum_comm]
  refine Finset.sum_congr rfl (fun a _ => Finset.sum_congr rfl (fun b _ => ?_))
  rw [hk a b]
  ring

theorem scatter_symm (kg : Mat) (si ei : ℕ)
    (hkg : ∀ a b, kg a b = kg b a) (i j : ℕ) :
    scatter kg si ei i j = scatter kg si ei j i := by
  unfold scatter
  rw [Finset.sum_comm]
  refine Finset.sum_congr rfl (fun c _ => Finset.sum_congr rfl (fun d _ => ?_))
  rw [hkg d c]
  exact if_congr and_comm rfl rfl

theorem asmStep_K_symm (sq : ℚ → ℚ) (pos : List (ℚ × ℚ × ℚ))
    (pIdx : Int → Option ℕ) (acc : AsmAcc) (m : Member) (acc' : AsmAcc)
    (hs : ∀ i j, acc.K i j = acc.K j i)
    (h : asmStep sq pos pIdx acc m = some acc') :
    ∀ i j, acc'.K i j = acc'.K j i := by
  unfold asmStep at h
  split at h
  · obtain rfl := Option.some_inj.mp h
    exact hs
  · split at h
    · rename_i si ei hsi hei
      dsimp only at h
      split at h
      · obtain rfl := Option.some_inj.mp h
        exact hs
      · split at h
        · rename_i kl T hkl hT
          obtain rfl := Option.some_inj.mp h
          intro i j
          show matAdd acc.K _ i j = matAdd acc.K _ j i
          unfold matAdd
          rw [hs i j,
            scatter_symm _ si ei
              (tKt_symm T kl (_local_stiffness_symm _ _ _ _ _ _ _ kl hkl)) i j]
        · exact Option.noConfusion h
    all_goals
      obtain rfl := Option.some_inj.mp h
      exact hs

theorem foldlM_K_symm (sq : ℚ → ℚ) (pos : List (ℚ × ℚ × ℚ))
    (pIdx : Int → Option ℕ) :
    ∀ (ms : List Member) (acc acc' : AsmAcc),
      (∀ i j, acc.K i j = acc.K j i) →
      ms.foldlM (asmStep sq pos pIdx) acc = some acc' →
      ∀ i j, acc'.K i j = acc'.K j i := by
  intro ms
  induction ms with
  | nil =>
    intro acc acc' hs h
    obtain rfl := Option.some_inj.mp h
    exact hs
  | cons mm rest ih =>
    intro acc acc' hs h
    rw [List.foldlM_cons] at h
    cases ha : asmStep sq pos pIdx acc mm with
    | none => rw [ha] at h; exact Option.noConfusion h
    | some acc1 =>
      rw [ha] at h
      exact ih acc1 acc' (asmStep_K_symm sq pos pIdx acc mm acc1 hs ha) h

theorem applyPenalty_symm (K : Mat) (d : ℕ)
    (hs : ∀ i j, K i j = K j i) :
    ∀ i j, applyPenalty K d i j = applyPenalty K d j i := by
  intro i j
  unfold applyPenalty
  split_ifs <;> first | rfl | exact hs i j | omega

theorem flagFold_symm (pi : ℕ) :
    ∀ (l : List (ℕ × Bool)) (acc : Mat × List ℕ),
      (∀ i j, acc.1 i j = acc.1 j i) →
      ∀ i j, (l.foldl (constrainFlagStep pi) acc).1 i j =
             (l.foldl (constrainFlagStep pi) acc).1 j i := by
  intro l
  induction l with
  | nil => intro acc hs; exact hs
  | cons q rest ih =>
    intro acc hs
    rw [List.foldl_cons]
    apply ih
    unfold constrainFlagStep
    split_ifs with hq
    · exact applyPenalty_symm acc.1 (pi * 6 + q.1) hs
    · exact hs

theorem supFold_symm (pIdx : Int → Option ℕ) :
    ∀ (l : List Support) (acc : Mat × List ℕ),
      (∀ i j, acc.1 i j = acc.1 j i) →
      ∀ i j, (l.foldl (constrainSupStep pIdx) acc).1 i j =
             (l.foldl (constrainSupStep pIdx) acc).1 j i := by
  intro l
  induction l with
  | nil => intro acc hs; exact hs
  | cons sup rest ih =>
    intro acc hs
    rw [List.foldl_cons]
    apply ih
    unfold constrainSupStep
    cases pIdx sup.point with
    | none => exact hs
    | some pi => exact flagFold_symm pi (flagsOf sup).enum acc hs

/-- Claim C5: for every model and every displacement vector (present or
absent), the full stiffness matrix assembled by `_assemble_matrices` is
symmetric — the scattered element matrices `Tᵀ·k_local·T` are symmetric
and the penalty boundary conditions (row/column zeroing with the 1e12
diagonal) preserve symmetry, for every true constraint flag. -/
theorem C5_assembled_stiffness_symmetric (sq : ℚ → ℚ) (model : Model)
    (x : Option Vec) (am : AssembledMatrices)
    (h : _assemble_matrices sq model x = some am) :
    ∀ i j, am.K_full i j = am.K_full j i := by
  unfold _assemble_matrices at h
  dsimp only at h
  cases hf : model.members.foldlM
      (asmStep sq (currentPositions model.points x) (pointIdToIdx model.points))
      { K := zeroMat, nm := model.points.map (fun _ => 0) } with
  | none => rw [hf] at h; exact Option.noConfusion h
  | some acc =>
    rw [hf] at h
    obtain rfl := Option.some_inj.mp h
    intro i j
    show (applyConstraints (pointIdToIdx model.points) model.supports acc.K).1 i j =
      (applyConstraints (pointIdToIdx model.points) model.supports acc.K).1 j i
    unfold applyConstraints
    exact supFold_symm (pointIdToIdx model.points) model.supports (acc.K, [])
      (foldlM_K_symm sq (currentPositions model.points x)
        (pointIdToIdx model.points) model.members _ acc (fun _ _ => rfl) hf) i j

/-- Fallback value used to name the assembled matrices of the witness. -/
def amDefault : AssembledMatrices :=
  { K_full := zeroMat, M_full := zeroMat, F_ext := zeroVec, free_dofs := [],
    constrained_dofs := [], nodal_masses := [] }

/-- Witness for C5: the empty model assembles, and entry (2,5) of its
stiffness matrix equals entry (5,2). -/
theorem C5_witness :
    ((_assemble_matrices (fun q => q) {} none).getD amDefault).K_full 2 5 =
      ((_assemble_matrices (fun q => q) {} none).getD amDefault).K_full 5 2 :=
  C5_assembled_stiffness_symmetric (fun q => q) {} none
    ((_assemble_matrices (fun q => q) {} none).getD amDefault)
    (by with_unfolding_all rfl) 2 5

-- =============================================================================
-- CLAIM C9 — static solver with diagnostics (spec-modelled)
-- =============================================================================

/-- Invariant of the elimination pass: every recorded constrained DOF
has an identity row and column in the boundary-conditioned matrix. -/
def elimInv (acc : Mat × List ℕ) : Prop :=
  ∀ d ∈ acc.2, ∀ j,
    acc.1 d j = (if d = j then (1 : ℚ) else 0) ∧
    acc.1 j d = (if j = d then (1 : ℚ) else 0)

theorem elimFlagStep_inv (pi : ℕ) (acc : Mat × List ℕ) (q : ℕ × Bool)
    (h : elimInv acc) : elimInv (elimFlagStep pi acc q) := by
  unfold elimFlagStep
  split_ifs with hq
  · intro d hd j
    simp only [List.mem_append, List.mem_singleton] at hd
    rcases hd with hd | rfl
    · have hh := h d hd j
      constructor
      · show applyElimination acc.1 (pi * 6 + q.1) d j = _
        unfold applyElimination
        by_cases hc : d = pi * 6 + q.1 ∨ j = pi * 6 + q.1
        · rw [if_pos hc]
        · rw [if_neg hc, hh.1]
      · show applyElimination acc.1 (pi * 6 + q.1) j d = _
        unfold applyElimination
        by_cases hc : j = pi * 6 + q.1 ∨ d = pi * 6 + q.1
        · rw [if_pos hc]
        · rw [if_neg hc, hh.2]
    · constructor
      · show applyElimination acc.1 (pi * 6 + q.1) (pi * 6 + q.1) j = _
        unfold applyElimination
        rw [if_pos (Or.inl rfl)]
      · show applyElimination acc.1 (pi * 6 + q.1) j (pi * 6 + q.1) = _
        unfold applyElimination
        rw [if_pos (Or.inr rfl)]
  · exact h

theorem elimFlagFold_inv (pi : ℕ) :
    ∀ (l : List (ℕ × Bool)) (acc : Mat × List ℕ), elimInv acc →
      elimInv (l.foldl (elimFlagStep pi) acc) := by
  intro l
  induction l with
  | nil => intro acc h; exact h
  | cons q rest ih =>
    intro acc h
    rw [List.foldl_cons]
    exact ih (elimFlagStep pi acc q) (elimFlagStep_inv pi acc q h)

theorem elimSupFold_inv (pIdx : Int → Option ℕ) :
    ∀ (l : List Support) (acc : Mat × List ℕ), elimInv acc →
      elimInv (l.foldl (elimSupStep pIdx) acc) := by
  intro l
  induction l with
  | nil => intro acc h; exact h
  | cons sup rest ih =>
    intro acc h
    rw [List.foldl_cons]
    refine ih (elimSupStep pIdx acc sup) ?_
    unfold elimSupStep
    cases pIdx sup.point with
    | none => exact h
    | some pi => exact elimFlagFold_inv pi (flagsOf sup).enum acc h

theorem applyBCElim_inv (pIdx : Int → Option ℕ) (supports : List Support)
    (K0 : Mat) : elimInv (applyBCElim pIdx supports K0) := by
  unfold applyBCElim
  exact elimSupFold_inv pIdx supports (K0, []) (by intro d hd; cases hd)

/-- Claim C9 (spec-modelled, since `solve_with_diagnostics` is imported
by `src/timber/__init__.py` but its definition is not under `src/`):
the one-shot static solve (no time stepping, no mass/damping) solves
`K_bc·d = F` directly, falls back to the least-squares solve exactly
when the direct solve reports a singular matrix, applies the boundary
conditions as true elimination — every recorded constrained DOF has a
zeroed row/column with diagonal 1 — computes the reactions as
`K_full·d − F_ext`, and returns the ordered diagnostic issue list. -/
theorem C9_solve_with_diagnostics_spec (sq : ℚ → ℚ)
    (linsolve : ℕ → Mat → Vec → Option Vec) (lstsq : ℕ → Mat → Vec → Vec)
    (model : Model) (kf : Mat × Vec) (out : StaticOutcome) (iss : List String)
    (hasm : staticAssemble sq model = some kf)
    (hrun : solve_with_diagnostics sq linsolve lstsq model = some (out, iss)) :
    (∀ d0, linsolve (model.points.length * 6)
        (applyBCElim (pointIdToIdx model.points) model.supports kf.1).1 kf.2 =
          some d0 →
        out.displacements = d0 ∧ out.usedLstsq = false) ∧
    (linsolve (model.points.length * 6)
        (applyBCElim (pointIdToIdx model.points) model.supports kf.1).1 kf.2 =
          none →
        out.displacements = lstsq (model.points.length * 6)
          (applyBCElim (pointIdToIdx model.points) model.supports kf.1).1 kf.2 ∧
        out.usedLstsq = true) ∧
    (∀ i, out.reactions i =
        matVec (model.points.length * 6) kf.1 out.displacements i - kf.2 i) ∧
    (∀ d ∈ (applyBCElim (pointIdToIdx model.points) model.supports kf.1).2, ∀ j,
        (applyBCElim (pointIdToIdx model.points) model.supports kf.1).1 d j =
          (if d = j then 1 else 0) ∧
        (applyBCElim (pointIdToIdx model.points) model.supports kf.1).1 j d =
          (if j = d then 1 else 0)) ∧
    iss = staticIssues sq model (model.points.length * 6) out.usedLstsq
            out.displacements := by
  unfold solve_with_diagnostics at hrun
  rw [hasm] at hrun
  dsimp only at hrun
  have h2 := Option.some_inj.mp hrun
  have hout := congrArg Prod.fst h2
  have hiss := congrArg Prod.snd h2
  subst hout
  subst hiss
  refine ⟨?_, ?_, ?_, applyBCElim_inv _ _ _, rfl⟩
  · intro d0 hls
    dsimp only
    rw [hls]
    exact ⟨rfl, rfl⟩
  · intro hls
    dsimp only
    rw [hls]
    exact ⟨rfl, rfl⟩
  · intro i
    rfl

/-- Fallback value naming the static outcome of the witness. -/
def swdDefault : StaticOutcome × List String :=
  ({ displacements := zeroVec, reactions := zeroVec, usedLstsq := false }, [])

/-- Witness for C9: on the empty model with a direct solver returning
the zero vector, the returned displacements are that solution and the
least-squares fallback is not used. -/
theorem C9_witness :
    ((solve_with_diagnostics (fun q => q) (fun _ _ _ => some zeroVec)
        (fun _ _ _ => zeroVec) {}).getD swdDefault).1.displacements = zeroVec ∧
    ((solve_with_diagnostics (fun q => q) (fun _ _ _ => some zeroVec)
        (fun _ _ _ => zeroVec) {}).getD swdDefault).1.usedLstsq = false :=
  (C9_solve_with_diagnostics_spec (fun q => q) (fun _ _ _ => some zeroVec)
      (fun _ _ _ => zeroVec) {}
      ((staticAssemble (fun q => q) {}).getD (zeroMat, zeroVec))
      ((solve_with_diagnostics (fun q => q) (fun _ _ _ => some zeroVec)
        (fun _ _ _ => zeroVec) {}).getD swdDefault).1
      ((solve_with_diagnostics (fun q => q) (fun _ _ _ => some zeroVec)
        (fun _ _ _ => zeroVec) {}).getD swdDefault).2
      (by with_unfolding_all rfl) (by with_unfolding_all rfl)).1 zeroVec rfl

end Timber
